import Mathlib

/-!
Verification of `mobile_cv/torch/utils_pytorch/distributed_helper.py`.

This file gives a shallow embedding of the rank/topology model, the
group-lifecycle state machine, the result channel and the launch decision
logic of `distributed_helper.py`, and proves the specified properties of
those definitions.

Modelling conventions:
- Python integers are `Int` (they are unbounded).
- A Python function that can raise returns `Except`; each Python exception
  site is mapped to a named constructor of `DistError` (the names follow the
  error taxonomy of the design document; for example the `ValueError` raised
  by `DistributedParams.validate` is `inconsistentRank`, and the failed
  `assert comm_._LOCAL_PROCESS_GROUP is None` is `localGroupFormation`).
- Calls into the external collective-communication collaborator
  (`dist.init_process_group`, `dist.new_group`, `dist.destroy_process_group`,
  `comm.synchronize`, `torch.cuda.set_device`) and into the process-spawn
  collaborator are recorded as a trace of `DistEvent` values, in call order.
- The process-wide slot `comm._LOCAL_PROCESS_GROUP` is threaded explicitly
  as an `Option Nat` (a group handle, identified by the index of the
  `dist.new_group` call inside `_enable_local_process_group` that created it).
- The two `@contextlib.contextmanager` generators have no `try/finally`
  around their `yield`: when the body raises, the exception is thrown into
  the generator at the `yield` and the code after the `yield` never runs.
  The embedding reproduces exactly that control flow.
-/

namespace MobileCV

/-- Error kinds of `distributed_helper.py`, one constructor per raise site.
`inconsistentRank` is the `ValueError` of `DistributedParams.validate`;
`localGroupFormation` the failed slot assert of `_enable_local_process_group`;
`invalidLaunchStrategy` the `ValueError` for a bad `launch_method` in `launch`;
`deviceCapacity` the failed CUDA device-count assert in `launch`;
`invalidBackend` the failed backend assert of `enable_dist_process_groups`;
`nameError` the Python `NameError` when `pg` is unbound at scope exit;
`zeroDivision` the Python `ZeroDivisionError` of `world_size // 0`;
`resultNotFound` a missing persisted result at `torch.load`. -/
inductive DistError where
  | inconsistentRank
  | localGroupFormation
  | invalidLaunchStrategy
  | deviceCapacity
  | invalidBackend
  | nameError
  | zeroDivision
  | resultNotFound
  deriving DecidableEq

/-- The fields of Python class `DistributedParams` (`distributed_helper.py`
lines 37-53). -/
structure DistributedParams where
  local_rank : Int
  global_rank : Int
  machine_rank : Int
  num_processes_per_machine : Int
  world_size : Int
  deriving DecidableEq

/-- `DistributedParams.validate` (lines 55-61): raises `ValueError` unless
`global_rank == machine_rank * num_processes_per_machine + local_rank`. -/
def DistributedParams.validate (p : DistributedParams) : Except DistError Unit :=
  if p.global_rank ≠ p.machine_rank * p.num_processes_per_machine + p.local_rank then
    .error .inconsistentRank
  else
    .ok ()

/-- The `DistributedParams.__init__` constructor (lines 40-53): stores the
five fields and calls `validate`, so construction returns the value object
or the validation error. -/
def DistributedParams.make (local_rank global_rank machine_rank
    num_processes_per_machine world_size : Int) : Except DistError DistributedParams :=
  let p : DistributedParams :=
    ⟨local_rank, global_rank, machine_rank, num_processes_per_machine, world_size⟩
  match p.validate with
  | .error e => .error e
  | .ok _ => .ok p

/-- Python `list(range(a, b))`: the integers from `a` (inclusive) to `b`
(exclusive), empty when `b ≤ a`. -/
def pyRange (a b : Int) : List Int :=
  (List.range (b - a).toNat).map fun j : Nat => a + (j : Int)

/-- The rank list `ranks_on_i` of `_enable_local_process_group` (lines
320-325): `list(range(i * num_processes_per_machine,
(i + 1) * num_processes_per_machine))`. -/
def ranksOnMachine (p : DistributedParams) (i : Int) : List Int :=
  pyRange (i * p.num_processes_per_machine) ((i + 1) * p.num_processes_per_machine)

/-- The loop bound `num_machines = world_size // num_processes_per_machine`
of `_enable_local_process_group` (line 318), as the number of iterations of
`for i in range(num_machines)` (zero when the floor quotient is negative). -/
def numMachines (p : DistributedParams) : Nat :=
  (Int.fdiv p.world_size p.num_processes_per_machine).toNat

/-- One observable call into an external collaborator, in program order. -/
inductive DistEvent where
  | initProcessGroup (backend : String) (world_size rank : Int)
  | setDevice (index : Int)
  | synchronize
  | newGroup (ranks : List Int)
  | destroyGroup (handle : Nat)
  | destroyGlobalGroup
  | callUserFunc
  | spawnProcesses (nprocs : Int)
  | elasticLaunch (num_machines nproc_per_node : Int)
  | runWorkerInProcess
  deriving DecidableEq

/-- Group-creation calls: `dist.init_process_group` and `dist.new_group`. -/
def DistEvent.isGroupCreation : DistEvent → Bool
  | .initProcessGroup _ _ _ => true
  | .newGroup _ => true
  | _ => false

/-- Group-destruction calls: `dist.destroy_process_group`, with or without
an explicit group argument. -/
def DistEvent.isDestroy : DistEvent → Bool
  | .destroyGroup _ => true
  | .destroyGlobalGroup => true
  | _ => false

/-- Process-spawning calls: `mp.spawn`. -/
def DistEvent.isSpawn : DistEvent → Bool
  | .spawnProcesses _ => true
  | _ => false

/-- The entry half of `_enable_local_process_group` (lines 311-330): the
code of the generator up to and including its `yield`. Input `slot` is the
current value of `comm._LOCAL_PROCESS_GROUP`; the result is the raised
error or unit, the new slot value, and the trace of collaborator calls.
The assert on line 317 fires while the slot is occupied; division by a zero
`num_processes_per_machine` raises before any call; otherwise the loop calls
`dist.new_group` once per machine partition in ascending order, records the
handle whose index equals `machine_rank`, and `comm.synchronize` runs after
the loop. -/
def localGroupEnter (slot : Option Nat) (p : DistributedParams) :
    Except DistError Unit × Option Nat × List DistEvent :=
  if slot.isSome then
    (.error .localGroupFormation, slot, [])
  else if p.num_processes_per_machine = 0 then
    (.error .zeroDivision, slot, [])
  else
    let nm := numMachines p
    let newSlot :=
      if 0 ≤ p.machine_rank ∧ p.machine_rank < (nm : Int) then
        some p.machine_rank.toNat
      else
        none
    (.ok (), newSlot,
      ((List.range nm).map fun i : Nat =>
        DistEvent.newGroup (ranksOnMachine p (i : Int))) ++
        [DistEvent.synchronize])

/-- The exit half of `_enable_local_process_group` (lines 333-334): the code
after the `yield`. It destroys `pg`, the loop variable left by the last
iteration (partition index `numMachines p - 1`), then clears the slot; when
the loop ran zero times `pg` is unbound and Python raises `NameError` before
the slot is touched. -/
def localGroupExit (slot : Option Nat) (p : DistributedParams) :
    Except DistError Unit × Option Nat × List DistEvent :=
  if numMachines p = 0 then
    (.error .nameError, slot, [])
  else
    (.ok (), none, [DistEvent.destroyGroup (numMachines p - 1)])

/-- An error escaping the group-lifecycle scope: either one of the helper
errors of this module or an exception raised by the user function. -/
inductive WorkerError where
  | dist (e : DistError)
  | userRaised (msg : String)
  deriving DecidableEq

/-- Python `str.lower()` on the ASCII backend names the source compares:
lowercase every character. (Stated structurally over the character list so
that the kernel can evaluate it on literals.) -/
def strLower (s : String) : String :=
  ⟨s.data.map Char.toLower⟩

/-- The backend assert of `enable_dist_process_groups` (line 108):
`backend.lower() in ["nccl", "gloo"]`. -/
def validBackend (backend : String) : Bool :=
  strLower backend = "nccl" || strLower backend = "gloo"

/-- The whole `enable_dist_process_groups` contextmanager (lines 101-131)
run around a body whose outcome is `body` (the user function: `.ok a` for a
normal return, `.error msg` for a raised exception). Control flow of the
source, in order: the backend assert; `dist.init_process_group`;
`torch.cuda.set_device(local_rank)` for the nccl backend;
`comm.synchronize()`; the entry half of `_enable_local_process_group`; the
body; then on a normal body return the exit half of
`_enable_local_process_group` followed by `dist.destroy_process_group()`.
Neither generator wraps its `yield` in `try/finally`, so a body exception
is rethrown at both `yield`s and every statement after them — both destroy
steps and the slot clear — is skipped. -/
def enableDistProcessGroups {α : Type} (backend : String) (slot : Option Nat)
    (p : DistributedParams) (body : Except String α) :
    Except WorkerError α × Option Nat × List DistEvent :=
  if validBackend backend = false then
    (.error (.dist .invalidBackend), slot, [])
  else
    let initTrace :=
      [DistEvent.initProcessGroup backend p.world_size p.global_rank] ++
        (if strLower backend = "nccl" then [DistEvent.setDevice p.local_rank] else []) ++
        [DistEvent.synchronize]
    match localGroupEnter slot p with
    | (.error e, slot1, tr1) => (.error (.dist e), slot1, initTrace ++ tr1)
    | (.ok _, slot1, tr1) =>
      match body with
      | .error msg => (.error (.userRaised msg), slot1, initTrace ++ tr1)
      | .ok a =>
        match localGroupExit slot1 p with
        | (.error e, slot2, tr2) => (.error (.dist e), slot2, initTrace ++ tr1 ++ tr2)
        | (.ok _, slot2, tr2) =>
          (.ok a, slot2, initTrace ++ tr1 ++ tr2 ++ [DistEvent.destroyGlobalGroup])

/-- The rank-suffixed result path of `save_return_deco` (line 141):
`f"{return_save_file}.rank{rank}"`. -/
def rankFile (return_save_file : String) (rank : Int) : String :=
  return_save_file ++ ".rank" ++ toString rank

/-- The result-persistence collaborator state: what value, if any, is stored
at each path. -/
def Store (β : Type) : Type := String → Option β

/-- The persistence collaborator `torch.save(ret, filename)`: overwrite the
value at one path. -/
def torchSave {β : Type} (s : Store β) (path : String) (v : β) : Store β :=
  fun q => if q = path then some v else s q

/-- The persistence collaborator `torch.load(filename)`: the stored value,
or an error when no write ever reached that path. -/
def torchLoad {β : Type} (s : Store β) (path : String) : Except DistError β :=
  match s path with
  | some v => .ok v
  | none => .error .resultNotFound

/-- `save_return_deco(return_save_file, rank)` applied to `func` (lines
133-150): the wrapped function runs `func`, and when a save file is given it
writes the return value to the rank-suffixed path; either way it returns the
original result to its caller. The store is threaded explicitly. -/
def saveReturnDeco {α β : Type} (return_save_file : Option String) (rank : Int)
    (func : α → β) : α → Store β → β × Store β :=
  fun a s =>
    let ret := func a
    match return_save_file with
    | none => (ret, s)
    | some file => (ret, torchSave s (rankFile file rank) ret)

/-- The `DistributedParams` construction of `_mp_spawn_helper` (lines
292-305): `global_rank = machine_rank * num_processes_per_machine +
local_rank`, then the constructor (which validates). -/
def mpSpawnHelperParams (local_rank world_size num_processes_per_machine
    machine_rank : Int) : Except DistError DistributedParams :=
  DistributedParams.make local_rank
    (machine_rank * num_processes_per_machine + local_rank)
    machine_rank num_processes_per_machine world_size

/-- Which branch of `launch` produced the result. `direct` carries the value
of the in-process call of the single-worker short circuit (line 275); the
other constructors name the multi-process branches, whose values arrive from
other OS processes and are delivered through the result channel. -/
inductive LaunchOutcome (β : Type) where
  | direct (value : β)
  | spawned
  | elastic
  | syncWorker
  deriving DecidableEq

/-- The decision logic of `launch` (lines 169-275). Inputs mirror the Python
signature (`args`/`kwargs` collapsed into one argument of the user
function); `device_count` is the environment value `torch.cuda.device_count()`.
In source order: `dist_url` defaults to a generated `file:///tmp/...`
address when absent (line 193); the CUDA capacity assert runs for the exact
string `"NCCL"` (lines 201-206); when `world_size > 1 or always_spawn`, an
unrecognized `launch_method` raises `ValueError` (lines 214-215), the
`"elastic"` method delegates to the elastic launcher, and otherwise an
`env://` address runs the worker synchronously in-process while any other
address calls `mp.spawn`; when `world_size == 1` and the flag is unset the
user function is called directly and its value returned (line 275). -/
def launch {α β : Type} (main_func : α → β) (num_processes_per_machine
    num_machines machine_rank : Int) (dist_url : Option String)
    (backend : String) (always_spawn : Bool) (launch_method : String)
    (device_count : Int) (args : α) :
    Except DistError (LaunchOutcome β) × List DistEvent :=
  let url := dist_url.getD "file:///tmp/mcvdh_dist_file_0"
  if backend = "NCCL" ∧ device_count < num_processes_per_machine then
    (.error .deviceCapacity, [])
  else
    let world_size := num_machines * num_processes_per_machine
    if world_size > 1 ∨ always_spawn then
      if launch_method ≠ "multiprocessing" ∧ launch_method ≠ "elastic" then
        (.error .invalidLaunchStrategy, [])
      else if launch_method = "elastic" then
        (.ok .elastic, [DistEvent.elasticLaunch num_machines num_processes_per_machine])
      else if url.startsWith "env://" then
        (.ok .syncWorker, [DistEvent.runWorkerInProcess])
      else
        (.ok .spawned, [DistEvent.spawnProcesses num_processes_per_machine])
    else
      (.ok (.direct (main_func args)), [DistEvent.callUserFunc])

/-! ## Helper lemmas -/

/-- Membership in the embedding of Python `range(a, b)`. -/
theorem mem_pyRange (a b x : Int) : x ∈ pyRange a b ↔ a ≤ x ∧ x < b := by
  unfold pyRange
  rw [List.mem_map]
  constructor
  · rintro ⟨j, hj, rfl⟩
    rw [List.mem_range] at hj
    omega
  · rintro ⟨h1, h2⟩
    refine ⟨(x - a).toNat, ?_, ?_⟩
    · rw [List.mem_range]
      omega
    · omega

/-- When `world_size = num_processes_per_machine * k` the floor quotient of
line 318 is exactly `k`. -/
theorem numMachines_eq (p : DistributedParams)
    (hnpm : 0 < p.num_processes_per_machine) (k : Int)
    (hk : p.world_size = p.num_processes_per_machine * k) :
    numMachines p = k.toNat := by
  unfold numMachines
  rw [hk, Int.mul_fdiv_cancel_left _ (by omega)]

/-! ## Claim theorems -/

/-- C2: constructing a `DistributedParams` fails with the inconsistent-rank
error exactly when `global_rank ≠ machine_rank * num_processes_per_machine +
local_rank`, and when the equation holds the constructed object stores the
five arguments unchanged. -/
theorem distributedParams_make_validates (lr gr mr npm ws : Int) :
    (DistributedParams.make lr gr mr npm ws = .ok ⟨lr, gr, mr, npm, ws⟩ ↔
      gr = mr * npm + lr) ∧
    (DistributedParams.make lr gr mr npm ws = .error .inconsistentRank ↔
      gr ≠ mr * npm + lr) := by
  unfold DistributedParams.make DistributedParams.validate
  by_cases h : gr = mr * npm + lr <;> simp [h]

/-- C7: the spawn-side derivation of `_mp_spawn_helper` computes
`global_rank = machine_rank * num_processes_per_machine + local_rank`, so the
constructed `DistributedParams` always passes validation. -/
theorem mpSpawnHelper_never_fails (lr ws npm mr : Int)
    (_h0 : 0 ≤ lr) (_h1 : lr < npm) :
    mpSpawnHelperParams lr ws npm mr = .ok ⟨lr, mr * npm + lr, mr, npm, ws⟩ ∧
    DistributedParams.validate ⟨lr, mr * npm + lr, mr, npm, ws⟩ = .ok () := by
  unfold mpSpawnHelperParams DistributedParams.make DistributedParams.validate
  simp

/-- Witness for C7 at `local_rank = 1`, `world_size = 4`,
`num_processes_per_machine = 2`, `machine_rank = 1`. -/
theorem mpSpawnHelper_never_fails_witness :
    mpSpawnHelperParams 1 4 2 1 = .ok ⟨1, 3, 1, 2, 4⟩ ∧
    DistributedParams.validate ⟨1, 3, 1, 2, 4⟩ = .ok () :=
  mpSpawnHelper_never_fails 1 4 2 1 (by decide) (by decide)

/-- C8: entering the local scope while the process-wide slot is occupied
fails with the local-group-formation error, makes no collaborator call at
all (empty trace, so in particular no group creation), and leaves the
occupied slot exactly as it was. -/
theorem localGroupEnter_occupied_fails (h : Nat) (p : DistributedParams) :
    localGroupEnter (some h) p = (.error .localGroupFormation, some h, []) := rfl

/-- C3: for a topology whose worker count divides the world size, entering
the local scope issues exactly `numMachines = world_size /
num_processes_per_machine` group-creation calls, in ascending machine index
order, followed by one barrier; call `i` passes exactly the ranks of the
half-open interval from `i * num_processes_per_machine` to `(i + 1) *
num_processes_per_machine`; and the process retains in its slot only the
handle of the call whose index equals its own `machine_rank`. -/
theorem localGroupEnter_partition_calls (p : DistributedParams)
    (hnpm : 0 < p.num_processes_per_machine)
    (hdvd : p.num_processes_per_machine ∣ p.world_size)
    (hmr0 : 0 ≤ p.machine_rank)
    (hmr : p.machine_rank < (numMachines p : Int)) :
    localGroupEnter none p =
      (.ok (), some p.machine_rank.toNat,
        ((List.range (numMachines p)).map fun i : Nat =>
          DistEvent.newGroup (ranksOnMachine p (i : Int))) ++
          [DistEvent.synchronize]) ∧
    (numMachines p : Int) * p.num_processes_per_machine = p.world_size ∧
    ∀ i x : Int, x ∈ ranksOnMachine p i ↔
      i * p.num_processes_per_machine ≤ x ∧
        x < (i + 1) * p.num_processes_per_machine := by
  obtain ⟨k, hk⟩ := hdvd
  have hnm : numMachines p = k.toNat := numMachines_eq p hnpm k hk
  refine ⟨?_, ?_, ?_⟩
  · unfold localGroupEnter
    simp [hnpm.ne', hmr0, hmr]
  · rw [hnm] at hmr ⊢
    rw [Int.toNat_of_nonneg (by omega), hk]
    ring
  · intro i x
    exact mem_pyRange _ _ x

/-- Witness for C3 at the topology with two workers per machine, two
machines and `machine_rank = 1`. -/
theorem localGroupEnter_partition_calls_witness :
    localGroupEnter none ⟨0, 2, 1, 2, 4⟩ =
      (.ok (), some (Int.toNat 1),
        ((List.range (numMachines ⟨0, 2, 1, 2, 4⟩)).map fun i : Nat =>
          DistEvent.newGroup (ranksOnMachine ⟨0, 2, 1, 2, 4⟩ (i : Int))) ++
          [DistEvent.synchronize]) ∧
    (numMachines ⟨0, 2, 1, 2, 4⟩ : Int) * 2 = 4 ∧
    ∀ i x : Int, x ∈ ranksOnMachine ⟨0, 2, 1, 2, 4⟩ i ↔
      i * 2 ≤ x ∧ x < (i + 1) * 2 :=
  localGroupEnter_partition_calls ⟨0, 2, 1, 2, 4⟩ (by decide) ⟨2, by decide⟩
    (by decide) (by decide)

/-- C5: for a valid topology, the exit half of the local scope destroys the
handle of the last machine partition (index `numMachines - 1`) and clears
the slot; the handle the process retained at entry is the one of index
`machine_rank`, so the retained handle is the destroyed one exactly when
`machine_rank = numMachines - 1`, and for any smaller `machine_rank` the
retained handle is cleared from the slot without ever being destroyed. -/
theorem localScope_destroys_last_partition (p : DistributedParams)
    (hnpm : 0 < p.num_processes_per_machine)
    (_hdvd : p.num_processes_per_machine ∣ p.world_size)
    (hmr0 : 0 ≤ p.machine_rank)
    (hmr : p.machine_rank < (numMachines p : Int)) :
    (localGroupEnter none p).2.1 = some p.machine_rank.toNat ∧
    localGroupExit (some p.machine_rank.toNat) p =
      (.ok (), none, [DistEvent.destroyGroup (numMachines p - 1)]) ∧
    (p.machine_rank.toNat = numMachines p - 1 ↔
      p.machine_rank = (numMachines p : Int) - 1) ∧
    (p.machine_rank < (numMachines p : Int) - 1 →
      DistEvent.destroyGroup p.machine_rank.toNat ∉
        (localGroupExit (some p.machine_rank.toNat) p).2.2) := by
  have hnm : numMachines p ≠ 0 := by omega
  refine ⟨?_, ?_, by omega, ?_⟩
  · unfold localGroupEnter
    simp [hnpm.ne', hmr0, hmr]
  · unfold localGroupExit
    simp [hnm]
  · intro hlt
    unfold localGroupExit
    rw [if_neg hnm]
    simp only [List.mem_singleton]
    intro hEq
    have h2 : p.machine_rank.toNat = numMachines p - 1 :=
      DistEvent.destroyGroup.inj hEq
    omega

/-- Witness for C5 at the topology with two workers per machine, two
machines and `machine_rank = 0` (a machine before the last, so its retained
handle is cleared but not destroyed). -/
theorem localScope_destroys_last_partition_witness :
    (localGroupEnter none ⟨0, 0, 0, 2, 4⟩).2.1 = some (Int.toNat 0) ∧
    localGroupExit (some (Int.toNat 0)) ⟨0, 0, 0, 2, 4⟩ =
      (.ok (), none, [DistEvent.destroyGroup (numMachines ⟨0, 0, 0, 2, 4⟩ - 1)]) ∧
    (Int.toNat 0 = numMachines ⟨0, 0, 0, 2, 4⟩ - 1 ↔
      (0 : Int) = (numMachines ⟨0, 0, 0, 2, 4⟩ : Int) - 1) ∧
    ((0 : Int) < (numMachines ⟨0, 0, 0, 2, 4⟩ : Int) - 1 →
      DistEvent.destroyGroup (Int.toNat 0) ∉
        (localGroupExit (some (Int.toNat 0)) ⟨0, 0, 0, 2, 4⟩).2.2) :=
  localScope_destroys_last_partition ⟨0, 0, 0, 2, 4⟩ (by decide) ⟨2, by decide⟩
    (by decide) (by decide)

/-- C4: on a normal exit of the group-lifecycle scope the destruction order
is local before global — the trace ends with the destruction of the local
group followed by the destruction of the global group, and the final slot is
empty, so the slot was cleared and the local group destroyed strictly before
the global destroy call and the global group is never destroyed while a
local group is still active. -/
theorem enableDist_normal_exit_order {α : Type} (backend : String)
    (p : DistributedParams) (a : α)
    (hb : validBackend backend = true)
    (hnpm : 0 < p.num_processes_per_machine)
    (hdvd : p.num_processes_per_machine ∣ p.world_size)
    (hle : p.num_processes_per_machine ≤ p.world_size) :
    enableDistProcessGroups backend none p (Except.ok a : Except String α) =
      (.ok a, none,
        ([DistEvent.initProcessGroup backend p.world_size p.global_rank] ++
          (if strLower backend = "nccl" then [DistEvent.setDevice p.local_rank]
            else []) ++
          [DistEvent.synchronize]) ++
        (((List.range (numMachines p)).map fun i : Nat =>
            DistEvent.newGroup (ranksOnMachine p (i : Int))) ++
          [DistEvent.synchronize]) ++
        [DistEvent.destroyGroup (numMachines p - 1)] ++
        [DistEvent.destroyGlobalGroup]) := by
  obtain ⟨k, hk⟩ := hdvd
  have hk1 : 1 ≤ k := (le_mul_iff_one_le_right hnpm).mp (hk ▸ hle)
  have hnm : numMachines p ≠ 0 := by
    rw [numMachines_eq p hnpm k hk]
    omega
  have hen : localGroupEnter none p =
      (.ok (),
        (if 0 ≤ p.machine_rank ∧ p.machine_rank < ((numMachines p : Nat) : Int)
          then some p.machine_rank.toNat else none),
        ((List.range (numMachines p)).map fun i : Nat =>
          DistEvent.newGroup (ranksOnMachine p (i : Int))) ++
          [DistEvent.synchronize]) := by
    unfold localGroupEnter
    rw [if_neg (by simp), if_neg (by omega)]
  have hex : ∀ s : Option Nat, localGroupExit s p =
      (.ok (), none, [DistEvent.destroyGroup (numMachines p - 1)]) := by
    intro s
    unfold localGroupExit
    rw [if_neg hnm]
  unfold enableDistProcessGroups
  rw [hb, if_neg (by simp)]
  simp only [hen, hex]

/-- Witness for C4 with the gloo backend, two workers per machine and two
machines. -/
theorem enableDist_normal_exit_order_witness :
    enableDistProcessGroups "gloo" none ⟨0, 0, 0, 2, 4⟩
        (Except.ok 7 : Except String Int) =
      (.ok 7, none,
        ([DistEvent.initProcessGroup "gloo" 4 0] ++
          (if strLower "gloo" = "nccl" then [DistEvent.setDevice 0] else []) ++
          [DistEvent.synchronize]) ++
        (((List.range (numMachines ⟨0, 0, 0, 2, 4⟩)).map fun i : Nat =>
            DistEvent.newGroup (ranksOnMachine ⟨0, 0, 0, 2, 4⟩ (i : Int))) ++
          [DistEvent.synchronize]) ++
        [DistEvent.destroyGroup (numMachines ⟨0, 0, 0, 2, 4⟩ - 1)] ++
        [DistEvent.destroyGlobalGroup]) :=
  enableDist_normal_exit_order "gloo" ⟨0, 0, 0, 2, 4⟩ 7 (by decide) (by decide)
    ⟨2, by decide⟩ (by decide)

/-- C1: a worker whose user function raises inside the group-lifecycle scope
does NOT run the teardown steps. At the valid topology with two workers per
machine and two machines, a body that raises propagates out with zero
destroy calls in the trace and the local-group slot still occupied: the
exception is rethrown at the `yield` of both generators, which have no
`try/finally`, so the statements after the `yield`s are skipped. The trace
holds the three group creations of entry and no destruction. -/
theorem enableDist_userError_skips_teardown :
    (enableDistProcessGroups "gloo" none ⟨0, 0, 0, 2, 4⟩
        (Except.error "boom" : Except String Unit)).1 =
      .error (.userRaised "boom") ∧
    (enableDistProcessGroups "gloo" none ⟨0, 0, 0, 2, 4⟩
        (Except.error "boom" : Except String Unit)).2.1 = some 0 ∧
    (enableDistProcessGroups "gloo" none ⟨0, 0, 0, 2, 4⟩
        (Except.error "boom" : Except String Unit)).2.2.countP
        DistEvent.isDestroy = 0 ∧
    (enableDistProcessGroups "gloo" none ⟨0, 0, 0, 2, 4⟩
        (Except.error "boom" : Except String Unit)).2.2.countP
        DistEvent.isGroupCreation = 3 := by
  refine ⟨rfl, rfl, rfl, rfl⟩

/-- C9: the function wrapped by `save_return_deco` returns the result of the
wrapped call unchanged to its caller; with a save file it persists the
result at the rank-suffixed path, from which a read recovers exactly the
written value; without a save file the store is untouched. -/
theorem saveReturnDeco_roundtrip {α β : Type} (func : α → β) (file : String)
    (rank : Int) (a : α) (s : Store β) :
    (saveReturnDeco (some file) rank func a s).1 = func a ∧
    (saveReturnDeco none rank func a s).1 = func a ∧
    (saveReturnDeco none rank func a s).2 = s ∧
    torchLoad (saveReturnDeco (some file) rank func a s).2 (rankFile file rank) =
      .ok (func a) := by
  refine ⟨rfl, rfl, rfl, ?_⟩
  unfold saveReturnDeco torchLoad torchSave
  simp

/-- C6: a launch with `num_machines * num_processes_per_machine = 1` and the
force-spawn flag unset calls the user function exactly once in the calling
process with the given argument and returns its value unchanged, with no
spawn call and no group-creation call (under the device-capacity
precondition of the NCCL backend, which is checked first). -/
theorem launch_single_worker {α β : Type} (main_func : α → β)
    (npm nm mr : Int) (dist_url : Option String) (backend : String)
    (lm : String) (dc : Int) (a : α)
    (hw : nm * npm = 1)
    (hdev : backend = "NCCL" → npm ≤ dc) :
    launch main_func npm nm mr dist_url backend false lm dc a =
      (.ok (.direct (main_func a)), [DistEvent.callUserFunc]) ∧
    (launch main_func npm nm mr dist_url backend false lm dc a).2.countP
      DistEvent.isSpawn = 0 ∧
    (launch main_func npm nm mr dist_url backend false lm dc a).2.countP
      DistEvent.isGroupCreation = 0 ∧
    (launch main_func npm nm mr dist_url backend false lm dc a).2.countP
      (fun e => decide (e = DistEvent.callUserFunc)) = 1 := by
  have hd : ¬(backend = "NCCL" ∧ dc < npm) := by
    rintro ⟨hB, hlt⟩
    exact absurd (hdev hB) (by omega)
  have key : launch main_func npm nm mr dist_url backend false lm dc a =
      (.ok (.direct (main_func a)), [DistEvent.callUserFunc]) := by
    unfold launch
    rw [if_neg hd, if_neg (by simp [hw])]
  refine ⟨key, ?_, ?_, ?_⟩ <;> rw [key] <;> rfl

/-- Witness for C6 with one worker on one machine and the gloo backend. -/
theorem launch_single_worker_witness :
    launch (fun n : Int => n * 2) 1 1 0 none "GLOO" false "multiprocessing" 0 3 =
      (.ok (.direct 6), [DistEvent.callUserFunc]) ∧
    (launch (fun n : Int => n * 2) 1 1 0 none "GLOO" false "multiprocessing"
      0 3).2.countP DistEvent.isSpawn = 0 ∧
    (launch (fun n : Int => n * 2) 1 1 0 none "GLOO" false "multiprocessing"
      0 3).2.countP DistEvent.isGroupCreation = 0 ∧
    (launch (fun n : Int => n * 2) 1 1 0 none "GLOO" false "multiprocessing"
      0 3).2.countP (fun e => decide (e = DistEvent.callUserFunc)) = 1 :=
  launch_single_worker (fun n : Int => n * 2) 1 1 0 none "GLOO"
    "multiprocessing" 0 3 (by decide) (by decide)

/-- C10 counterexample: a launch whose strategy selector is the unrecognized
name "bogus" but whose world size is one (and force-spawn unset) does not
fail at all — the selector is never examined on the single-worker short
circuit and the user function is called directly, so the claim that every
launch with an unrecognized selector fails with the invalid-strategy error
is false at this input. -/
theorem launch_bogus_method_no_error :
    (launch (fun n : Int => n + 1) 1 1 0 none "GLOO" false "bogus" 0 0).1 =
      .ok (.direct 1) ∧
    (launch (fun n : Int => n + 1) 1 1 0 none "GLOO" false "bogus" 0 0).1 ≠
      .error DistError.invalidLaunchStrategy := by
  have k : (launch (fun n : Int => n + 1) 1 1 0 none "GLOO" false "bogus" 0 0).1 =
      Except.ok (LaunchOutcome.direct 1) := rfl
  refine ⟨k, ?_⟩
  rw [k]
  simp

/-- C10 (amended): when the multi-process path is taken (world size above
one, or force-spawn set) and the device-capacity precondition holds, an
unrecognized strategy selector makes `launch` fail with the invalid-strategy
error before any spawn call and before any group-creation call (the trace is
empty). -/
theorem launch_invalid_method_fails {α β : Type} (main_func : α → β)
    (npm nm mr : Int) (dist_url : Option String) (backend : String)
    (always_spawn : Bool) (lm : String) (dc : Int) (a : α)
    (hdev : backend = "NCCL" → npm ≤ dc)
    (hmulti : 1 < nm * npm ∨ always_spawn = true)
    (h1 : lm ≠ "multiprocessing") (h2 : lm ≠ "elastic") :
    launch main_func npm nm mr dist_url backend always_spawn lm dc a =
      (.error .invalidLaunchStrategy, []) := by
  have hd : ¬(backend = "NCCL" ∧ dc < npm) := by
    rintro ⟨hB, hlt⟩
    exact absurd (hdev hB) (by omega)
  unfold launch
  rw [if_neg hd, if_pos hmulti, if_pos ⟨h1, h2⟩]

/-- Witness for the amended C10 with two workers on one machine and the
unrecognized selector "bogus". -/
theorem launch_invalid_method_fails_witness :
    launch (fun n : Int => n + 1) 2 1 0 none "GLOO" false "bogus" 0 0 =
      (.error .invalidLaunchStrategy, []) :=
  launch_invalid_method_fails (fun n : Int => n + 1) 2 1 0 none "GLOO" false
    "bogus" 0 0 (by decide) (by decide) (by decide) (by decide)

end MobileCV
